import Mathlib

/-!
Verification of the cccopy synchronization tool against its specification.

Shallow embedding of the core data model and operations:
* the three-way file-state classifier (`get_file_state`, config.py),
* the Production tag store (`save_production_tag` / `get_production_tag_parts`),
* the Download tag-update phase and the Upload phase (config.py),
* the backup command generator (`_create_backup_command`),
* the pattern matcher (`collect_files` with Python `glob` / `fnmatch` semantics),
* the SOURCES hash (`_compute_sources_hash`, CRC-32),
* the state cache (`get_cached_state` / `update_cache`, tui.py),
* the lock manager acquire/release loop (lock_manager.py),
* the Work rollback flow (`rollback_work_to_commit`, tui.py).
-/

set_option maxRecDepth 40000

namespace CCCopy

/-- File states, from models/file_state.py (string constants in the source). -/
inductive FileState where
  | same
  | modified
  | updated
  | conflicted
  | pending
deriving DecidableEq, Repr

/-- A git blob identity as used by the classifier: either the sentinel
`"MISSING"` (substituted by `get_file_state` when a file is absent) or a
content hash.  Modelled as a dedicated constructor rather than the literal
string, since real hashes never collide with the literal `"MISSING"`. -/
inductive HashV where
  | missing
  | hv (s : String)
deriving DecidableEq, Repr

/-- The three blob identities resolved by `get_file_state` after the
MISSING substitution: work tree hash, Production head hash and the hash in
the tagged baseline commit. -/
structure HashTriple where
  work : HashV
  prodHead : HashV
  base : HashV
deriving DecidableEq, Repr

/-- `ProjectManager.get_file_state` (config.py lines 1414-1467).
Inputs: whether `has_production_tag()` holds, the `production_commit`
extracted from the tag (`none` models a Python-falsy commit, i.e. `None` or
the empty string), and the hash fetch outcome (`none` models any exception
raised while resolving the three hashes, caught by the bare `except`). -/
def get_file_state (hasTag : Bool) (commit : Option String)
    (fetch : Option HashTriple) : FileState :=
  if !hasTag then FileState.updated
  else if (commit.getD "") = "" then FileState.updated
  else
    match fetch with
    | none => FileState.conflicted
    | some f =>
      if f.work = HashV.missing ∧ f.prodHead ≠ HashV.missing then FileState.updated
      else if f.work ≠ HashV.missing ∧ f.prodHead = HashV.missing then FileState.modified
      else
        let workEqBase := f.work = f.base
        let workEqHead := f.work = f.prodHead
        let baseEqHead := f.base = f.prodHead
        if workEqBase ∧ workEqHead ∧ baseEqHead then FileState.same
        else if workEqBase ∧ ¬baseEqHead then FileState.updated
        else if ¬workEqBase ∧ baseEqHead then FileState.modified
        else if workEqHead ∧ ¬workEqBase then FileState.same
        else FileState.conflicted

/-- The classifier as the specification words it (spec section 4.G): the
special cases first (tag absent, exception during hashing, Work MISSING with
Production present, Work present with Production MISSING), then the
three-way table: all three equal SAME; work=base and base/=prod UPDATED;
work/=base and base=prod MODIFIED; work/=base and work=prod SAME; all
pairwise different CONFLICTED. -/
def specClassifier (tagPresent : Bool) (fetch : Option HashTriple) : FileState :=
  if !tagPresent then FileState.updated
  else
    match fetch with
    | none => FileState.conflicted
    | some f =>
      if f.work = HashV.missing ∧ f.prodHead ≠ HashV.missing then FileState.updated
      else if f.work ≠ HashV.missing ∧ f.prodHead = HashV.missing then FileState.modified
      else if f.work = f.base ∧ f.base = f.prodHead then FileState.same
      else if f.work = f.base ∧ f.base ≠ f.prodHead then FileState.updated
      else if f.work ≠ f.base ∧ f.base = f.prodHead then FileState.modified
      else if f.work ≠ f.base ∧ f.work = f.prodHead then FileState.same
      else FileState.conflicted

/-- C1: the file-state classifier is total (it is a Lean function) and
agrees with the specification's table and special cases on every
combination of tag presence, hashing outcome and the three blob identities,
MISSING included.  A tag whose commit part is Python-falsy counts as an
absent tag. -/
theorem get_file_state_matches_spec (hasTag : Bool) (commit : Option String)
    (fetch : Option HashTriple) :
    get_file_state hasTag commit fetch
      = specClassifier (hasTag && !((commit.getD "") = "")) fetch := by
  cases hasTag with
  | false => simp [get_file_state, specClassifier]
  | true =>
    by_cases hc : (commit.getD "") = ""
    · simp [get_file_state, specClassifier, hc]
    · cases fetch with
      | none => simp [get_file_state, specClassifier, hc]
      | some f =>
        simp only [get_file_state, specClassifier, hc, Bool.not_true, Bool.true_and,
          Bool.not_false, if_false, if_true, ite_false, ite_true]
        by_cases h1 : f.work = HashV.missing ∧ f.prodHead ≠ HashV.missing
        · simp [h1]
        · by_cases h2 : f.work ≠ HashV.missing ∧ f.prodHead = HashV.missing
          · simp [h1, h2]
          · by_cases hwb : f.work = f.base
            · by_cases hbh : f.base = f.prodHead
              · simp [h1, h2, hwb, hbh]
              · simp [h1, h2, hwb, hbh]
            · by_cases hbh : f.base = f.prodHead
              · simp [h1, h2, hwb, hbh]
              · by_cases hwh : f.work = f.prodHead
                · simp [h1, h2, hwb, hbh, hwh]
                · simp [h1, h2, hwb, hbh, hwh]

/-! ## Production tag store (`ProductionTagManager`, config.py lines 20-99) -/

/-- Python `str.strip()` on the character list of a string: drop whitespace
from both ends. -/
def pyStripList (l : List Char) : List Char :=
  ((l.dropWhile Char.isWhitespace).reverse.dropWhile Char.isWhitespace).reverse

/-- Python `str.strip()`. -/
def pyStrip (s : String) : String :=
  String.mk (pyStripList s.data)

/-- Python `tag.split(':', 1)` for a string known to contain a colon:
the part before the first colon and everything after it. -/
def splitOnceColon (l : List Char) : List Char × List Char :=
  (l.takeWhile (fun c => c ≠ ':'), (l.dropWhile (fun c => c ≠ ':')).drop 1)

/-- `ProductionTagManager.save_production_tag` (config.py lines 28-64),
as a transformer of the tag-file content.  `headCommit` is Production's
current HEAD (`none` when it cannot be obtained or an exception occurs, in
which case the function returns False and the file is left unchanged).
With `includeSourcesHash` and a project manager present it writes
`"<commit>:<hash>"`, otherwise `"<commit>"`. -/
def save_production_tag (headCommit : Option String) (includeSourcesHash : Bool)
    (sourcesHash : String) (tagFile : Option String) : Option String :=
  match headCommit with
  | none => tagFile
  | some c =>
      if includeSourcesHash then some (c ++ ":" ++ sourcesHash)
      else some c

/-- `ProductionTagManager.get_production_tag` (config.py lines 66-74):
read the tag file and strip it; `none` when the file is missing. -/
def get_production_tag (tagFile : Option String) : Option String :=
  match tagFile with
  | none => none
  | some content => some (pyStrip content)

/-- `ProductionTagManager.get_production_tag_parts` (config.py lines
76-95): `(none, none)` on a missing or Python-falsy (empty) tag; split at
the first `':'` for the enhanced format; `(commit, none)` for the old
commit-only format. -/
def get_production_tag_parts (tagFile : Option String) :
    Option String × Option String :=
  match get_production_tag tagFile with
  | none => (none, none)
  | some t =>
      if t = "" then (none, none)
      else if t.data.contains ':' then
        let p := splitOnceColon t.data
        (some (String.mk p.1), some (String.mk p.2))
      else (some t, none)

lemma dropWhile_of_forall_not {p : Char → Bool} {l : List Char}
    (h : ∀ c ∈ l, p c = false) : l.dropWhile p = l := by
  cases l with
  | nil => rfl
  | cons a as => simp [List.dropWhile, h a (List.mem_cons_self a as)]

lemma pyStripList_id {l : List Char} (h : ∀ c ∈ l, c.isWhitespace = false) :
    pyStripList l = l := by
  unfold pyStripList
  rw [dropWhile_of_forall_not h, dropWhile_of_forall_not, List.reverse_reverse]
  intro c hc
  exact h c (List.mem_reverse.mp hc)

lemma takeWhile_append_break {pre post : List Char}
    (h : ∀ c ∈ pre, c ≠ ':') :
    (pre ++ ':' :: post).takeWhile (fun c => c ≠ ':') = pre := by
  induction pre with
  | nil => simp [List.takeWhile]
  | cons a as ih =>
      have ha : a ≠ ':' := h a (List.mem_cons_self a as)
      have ih2 := ih (fun c hc => h c (List.mem_cons_of_mem a hc))
      rw [List.cons_append, List.takeWhile_cons, if_pos (by simp [ha]), ih2]

lemma dropWhile_append_break {pre post : List Char}
    (h : ∀ c ∈ pre, c ≠ ':') :
    (pre ++ ':' :: post).dropWhile (fun c => c ≠ ':') = ':' :: post := by
  induction pre with
  | nil => simp [List.dropWhile]
  | cons a as ih =>
      have ha : a ≠ ':' := h a (List.mem_cons_self a as)
      have ih2 := ih (fun c hc => h c (List.mem_cons_of_mem a hc))
      rw [List.cons_append, List.dropWhile_cons, if_pos (by simp [ha]), ih2]

lemma data_append (s t : String) : (s ++ t).data = s.data ++ t.data := rfl

lemma mk_data (s : String) : String.mk s.data = s := rfl

/-- C7: tag round-trip.  For every commit id and sources hash (commit
nonempty, colon-free, both free of whitespace — true of real git ids and
CRC-32 hex strings), saving the enhanced tag and re-reading it yields the
same commit and hash; a tag in the old commit-only format reads back as
`(commit, none)`; a missing tag file reads as `(none, none)`. -/
theorem production_tag_roundtrip (commit hash : String)
    (hne : commit ≠ "")
    (hcolon : ∀ c ∈ commit.data, c ≠ ':')
    (hwc : ∀ c ∈ commit.data, c.isWhitespace = false)
    (hwh : ∀ c ∈ hash.data, c.isWhitespace = false) :
    get_production_tag_parts (save_production_tag (some commit) true hash none)
        = (some commit, some hash)
      ∧ get_production_tag_parts (some commit) = (some commit, none)
      ∧ get_production_tag_parts none = (none, none) := by
  have hdata : (commit ++ ":" ++ hash).data = commit.data ++ ':' :: hash.data := by
    rw [data_append, data_append, List.append_assoc]
    rfl
  have hstrip : pyStrip (commit ++ ":" ++ hash) = commit ++ ":" ++ hash := by
    have hforall : ∀ c ∈ (commit ++ ":" ++ hash).data, c.isWhitespace = false := by
      rw [hdata]
      intro c hc
      rcases List.mem_append.mp hc with h1 | h2
      · exact hwc c h1
      · rcases List.mem_cons.mp h2 with h3 | h4
        · subst h3; rfl
        · exact hwh c h4
    unfold pyStrip
    rw [pyStripList_id hforall, mk_data]
  have hstripc : pyStrip commit = commit := by
    unfold pyStrip
    rw [pyStripList_id hwc, mk_data]
  refine ⟨?_, ?_, rfl⟩
  · unfold save_production_tag get_production_tag_parts get_production_tag
    simp only [if_true, hstrip]
    have hne2 : commit ++ ":" ++ hash ≠ "" := by
      intro h
      have h2 := congrArg String.data h
      rw [hdata] at h2
      simp at h2
    rw [if_neg hne2]
    have hcontains : (commit ++ ":" ++ hash).data.contains ':' = true := by
      rw [hdata]
      simp [List.contains_eq_any_beq]
    rw [if_pos hcontains]
    unfold splitOnceColon
    rw [hdata, takeWhile_append_break hcolon, dropWhile_append_break hcolon]
    simp [mk_data]
  · unfold get_production_tag_parts get_production_tag
    simp only [hstripc]
    rw [if_neg hne]
    have hmem : ':' ∉ commit.data := fun hc => (hcolon ':' hc) rfl
    have hnc : ¬ (commit.data.contains ':' = true) := by simpa using hmem
    rw [if_neg hnc]

/-- Witness for C7 at a concrete commit and hash. -/
theorem production_tag_roundtrip_witness :
    get_production_tag_parts (save_production_tag (some "abc123") true "7f8a9b2c" none)
        = (some "abc123", some "7f8a9b2c")
      ∧ get_production_tag_parts (some "abc123") = (some "abc123", none)
      ∧ get_production_tag_parts none = (none, none) :=
  production_tag_roundtrip "abc123" "7f8a9b2c" (by decide) (by decide)
    (by decide) (by decide)

/-! ## SOURCES hash (`ProjectManager._compute_sources_hash`, config.py
lines 1527-1553) -/

/-- One bit step of the reflected CRC-32 (polynomial 0xEDB88320), as
computed by `zlib.crc32`. -/
def crc32BitStep (c : Nat) : Nat :=
  if c % 2 = 1 then (c / 2) ^^^ 0xEDB88320 else c / 2

/-- Absorb one byte into the CRC accumulator: xor it in, then eight bit
steps. -/
def crc32Byte (c b : Nat) : Nat :=
  Nat.iterate crc32BitStep 8 (c ^^^ b)

/-- `zlib.crc32(bytes) & 0xffffffff`: standard reflected CRC-32 with
initial and final value 0xFFFFFFFF. -/
def crc32 (bytes : List Nat) : Nat :=
  (bytes.foldl crc32Byte 0xFFFFFFFF) ^^^ 0xFFFFFFFF

/-- UTF-8 encoding of one character, as byte values. -/
def utf8EncodeChar (c : Char) : List Nat :=
  let n := c.toNat
  if n < 0x80 then [n]
  else if n < 0x800 then [0xC0 ||| (n >>> 6), 0x80 ||| (n &&& 0x3F)]
  else if n < 0x10000 then
    [0xE0 ||| (n >>> 12), 0x80 ||| ((n >>> 6) &&& 0x3F), 0x80 ||| (n &&& 0x3F)]
  else
    [0xF0 ||| (n >>> 18), 0x80 ||| ((n >>> 12) &&& 0x3F),
      0x80 ||| ((n >>> 6) &&& 0x3F), 0x80 ||| (n &&& 0x3F)]

/-- The UTF-8 encoding of a string, as byte values. -/
def utf8Bytes (s : String) : List Nat :=
  (s.data.map utf8EncodeChar).flatten

/-- Python compares strings lexicographically by code point; on `String`
this is the lexicographic order on the underlying character lists. -/
def pyStrLe (a b : String) : Prop := a.data ≤ b.data

instance : DecidableRel pyStrLe := fun a b => inferInstanceAs (Decidable (a.data ≤ b.data))

instance : IsTotal String pyStrLe := ⟨fun a b => total_of (· ≤ ·) a.data b.data⟩

instance : IsTrans String pyStrLe := ⟨fun _ _ _ h1 h2 => le_trans h1 h2⟩

instance : IsAntisymm String pyStrLe := by
  constructor
  intro a b h1 h2
  cases a
  cases b
  exact congrArg String.mk (le_antisymm h1 h2)

/-- Format as `"%08x"`: lowercase hexadecimal, zero-padded to 8 digits. -/
def toHex8 (n : Nat) : String :=
  let s := String.mk (Nat.toDigits 16 n)
  String.mk (List.replicate (8 - s.length) '0') ++ s

/-- `ProjectManager._compute_sources_hash` (config.py lines 1527-1553):
`"00000000"` for an empty SOURCES list, otherwise the sorted patterns are
joined with `'|'` and CRC-32 hashed to 8 lowercase hex digits.  Python's
`sorted` on strings is modelled by `List.insertionSort` under the
lexicographic order (both produce the unique `≤`-sorted arrangement). -/
def compute_sources_hash (sourcePatterns : List String) : String :=
  if sourcePatterns.isEmpty then "00000000"
  else
    let sortedPatterns := sourcePatterns.insertionSort pyStrLe
    let patternsStr := String.intercalate "|" sortedPatterns
    toHex8 (crc32 (utf8Bytes patternsStr))

/-- C10: the SOURCES hash is invariant under permutation of the pattern
list, and the empty pattern list hashes to the constant `"00000000"`. -/
theorem sources_hash_perm_invariant (l l' : List String) (hperm : l.Perm l') :
    compute_sources_hash l = compute_sources_hash l'
      ∧ compute_sources_hash [] = "00000000" := by
  constructor
  · have hsort : l.insertionSort pyStrLe = l'.insertionSort pyStrLe :=
      List.eq_of_perm_of_sorted
        ((List.perm_insertionSort _ l).trans
          (hperm.trans (List.perm_insertionSort _ l').symm))
        (List.sorted_insertionSort _ l) (List.sorted_insertionSort _ l')
    unfold compute_sources_hash
    rcases l with _ | ⟨a, as⟩
    · have h0 : l' = [] := hperm.symm.eq_nil
      rw [h0]
    · have hne : ¬ l'.isEmpty = true := by
        intro h
        have h0 := List.isEmpty_iff.mp h
        subst h0
        exact absurd hperm.eq_nil (by simp)
      rw [if_neg (by simp), if_neg hne, hsort]
  · rfl

/-- Sanity check of the CRC-32 embedding: `zlib.crc32` of
`"AAA/**|BBB/*.py"` is `0x1a97eb75`. -/
example : compute_sources_hash ["AAA/**", "BBB/*.py"] = "1a97eb75" := by decide

/-- Witness for C10 at a concrete permutation. -/
theorem sources_hash_perm_invariant_witness :
    compute_sources_hash ["BBB/*.py", "AAA/**"]
        = compute_sources_hash ["AAA/**", "BBB/*.py"]
      ∧ compute_sources_hash [] = "00000000" :=
  sources_hash_perm_invariant ["BBB/*.py", "AAA/**"] ["AAA/**", "BBB/*.py"]
    (List.Perm.swap _ _ _)

/-! ## Synchronization engine: Download tag phase and Upload
(`ProjectManager.download` / `ProjectManager.upload`, config.py) -/

/-- The per-file outcome reaching Download's processing loop: the
classification of the file and, for CONFLICTED files, whether the conflict
mediator (`handle_conflict`) reported it resolved. -/
structure DlItem where
  state : FileState
  resolved : Bool
deriving DecidableEq, Repr

/-- The `unresolved_conflicts` flag as computed by Download's per-file loop
(config.py lines 2102-2138): set when a CONFLICTED file is not resolved,
never cleared. -/
def downloadUnresolvedFlag (files : List DlItem) : Bool :=
  files.foldl
    (fun acc f =>
      if f.state = FileState.conflicted ∧ f.resolved = false then true else acc)
    false

/-- Download's tag update (config.py lines 2140-2144): the tag is saved
(with the sources hash) only when no conflict was left unresolved. -/
def downloadTagPhase (files : List DlItem) (headCommit : Option String)
    (sourcesHash : String) (tagFile : Option String) : Option String :=
  if downloadUnresolvedFlag files then tagFile
  else save_production_tag headCommit true sourcesHash tagFile

lemma downloadUnresolvedFlag_acc (files : List DlItem) :
    files.foldl
        (fun acc f =>
          if f.state = FileState.conflicted ∧ f.resolved = false then true else acc)
        true = true := by
  induction files with
  | nil => rfl
  | cons f fs ih =>
      simp only [List.foldl]
      split
      · exact ih
      · exact ih

lemma downloadUnresolvedFlag_iff (files : List DlItem) :
    downloadUnresolvedFlag files = true
      ↔ ∃ f ∈ files, f.state = FileState.conflicted ∧ f.resolved = false := by
  unfold downloadUnresolvedFlag
  induction files with
  | nil => simp
  | cons f fs ih =>
      simp only [List.foldl]
      by_cases h : f.state = FileState.conflicted ∧ f.resolved = false
      · rw [if_pos h, downloadUnresolvedFlag_acc]
        simp only [true_iff]
        exact ⟨f, List.mem_cons_self f fs, h⟩
      · rw [if_neg h, ih]
        constructor
        · rintro ⟨g, hg, hgs⟩
          exact ⟨g, List.mem_cons_of_mem f hg, hgs⟩
        · rintro ⟨g, hg, hgs⟩
          rcases List.mem_cons.mp hg with rfl | hg2
          · exact absurd hgs h
          · exact ⟨g, hg2, hgs⟩

/-- A candidate file reaching Upload's classification loop: its relative
path, whether the Work copy exists on disk, and its classification. -/
structure CandFile where
  relPath : String
  workExists : Bool
  state : FileState
deriving DecidableEq, Repr

/-- Upload's classification loop (config.py lines 2279-2294): skip
`.gitignore`, require the Work file to exist, collect MODIFIED candidates
and the relative paths of CONFLICTED ones, in input order. -/
def uploadClassify : List CandFile → List CandFile × List String
  | [] => ([], [])
  | f :: fs =>
      let mc := uploadClassify fs
      if f.relPath = ".gitignore" ∨ f.workExists = false then mc
      else if f.state = FileState.modified then (f :: mc.1, mc.2)
      else if f.state = FileState.conflicted then (mc.1, f.relPath :: mc.2)
      else mc

/-- The Production side effects of an Upload, as observable state: which
relative paths exist as files, the backup files present, the commit
messages in order, and the tag-file content. -/
structure ProdState where
  existing : List String
  backups : List String
  commits : List String
  tag : Option String
deriving DecidableEq, Repr

/-- Split a character list at `'/'` separators (kernel-reducible stand-in
for `str.split('/')`). -/
def splitSlash : List Char → List (List Char)
  | [] => [[]]
  | c :: cs =>
      if c = '/' then [] :: splitSlash cs
      else (c :: (splitSlash cs).headD []) :: (splitSlash cs).tail

/-- The last `/`-separated segment of a relative path
(`os.path.basename`). -/
def baseNameOf (rel : String) : String :=
  String.mk ((splitSlash rel.data).getLastD [])

/-- All but the last segment (`os.path.dirname`), joined. -/
def dirNameOf (rel : String) : String :=
  String.intercalate "/" (((splitSlash rel.data).dropLast).map String.mk)

/-- The backup destination written by the command from
`ProjectManager._create_backup_command` (config.py lines 1751-1773):
`<dir>/backup/<name>_cccopy_000000_<timestamp>` — the index is always the
literal `000000` and no retention is applied. -/
def backupDest (rel ts : String) : String :=
  dirNameOf rel ++ "/backup/" ++ baseNameOf rel ++ "_cccopy_000000_" ++ ts

/-- Effect of running the generated backup command followed by the
`mkdir -p && cp -p` upload copy for one MODIFIED file (config.py lines
2329-2343).  `_create_backup_command` returns no command when
`backup_count <= 0`; the command itself copies only when the Production
file exists (`[ -f ... ]`), overwriting any same-named backup. -/
def uploadOneFile (backupCount : Nat) (ts : String) (rel : String)
    (s : ProdState) : ProdState :=
  let s1 :=
    if backupCount > 0 ∧ s.existing.contains rel then
      { s with backups :=
          if s.backups.contains (backupDest rel ts) then s.backups
          else s.backups ++ [backupDest rel ts] }
    else s
  { s1 with existing :=
      if s1.existing.contains rel then s1.existing else s1.existing ++ [rel] }

/-- Outcome reported by the Upload phase. -/
inductive UploadResult where
  | abortedConflicts (paths : List String)
  | nothingToUpload
  | cancelled
  | completed (n : Nat)
deriving DecidableEq, Repr

/-- `ProjectManager.upload`, the phase after the Production auto-capture
commit (config.py lines 2275-2360): classify candidates; abort listing all
conflicted paths if any; report nothing-to-upload if no MODIFIED file;
otherwise — after user confirmation — back up and copy each MODIFIED file,
commit with the user's message, and save the tag with the new Production
head and the sources hash. -/
def uploadPhase (files : List CandFile) (confirm : Bool) (comment : String)
    (backupCount : Nat) (ts newHead sourcesHash : String) (st : ProdState) :
    ProdState × UploadResult :=
  let modified := (uploadClassify files).1
  let conflicted := (uploadClassify files).2
  if conflicted ≠ [] then (st, UploadResult.abortedConflicts conflicted)
  else if modified = [] then (st, UploadResult.nothingToUpload)
  else if confirm = false then (st, UploadResult.cancelled)
  else
    let st1 := modified.foldl (fun s f => uploadOneFile backupCount ts f.relPath s) st
    let st2 := { st1 with commits := st1.commits ++ [comment] }
    let st3 := { st2 with tag := some (newHead ++ ":" ++ sourcesHash) }
    (st3, UploadResult.completed modified.length)

/-- C3: if any candidate classifies CONFLICTED, Upload aborts with a
diagnostic carrying every conflicted path and the Production state is
untouched — no backup, no copy, no commit, tag unchanged; and if no
candidate classifies MODIFIED, Upload reports nothing to upload, likewise
leaving the Production state untouched. -/
theorem upload_aborts_on_conflict (files : List CandFile) (confirm : Bool)
    (comment : String) (backupCount : Nat) (ts newHead sourcesHash : String)
    (st : ProdState) :
    ((uploadClassify files).2 ≠ [] →
        uploadPhase files confirm comment backupCount ts newHead sourcesHash st
            = (st, UploadResult.abortedConflicts (uploadClassify files).2)
          ∧ ∀ f ∈ files,
              f.relPath ≠ ".gitignore" → f.workExists = true →
                f.state = FileState.conflicted →
                  f.relPath ∈ (uploadClassify files).2)
      ∧ ((uploadClassify files).2 = [] → (uploadClassify files).1 = [] →
          uploadPhase files confirm comment backupCount ts newHead sourcesHash st
            = (st, UploadResult.nothingToUpload)) := by
  constructor
  · intro hc
    constructor
    · unfold uploadPhase
      rw [if_pos hc]
    · intro f hf hgi hwe hst
      clear hc
      induction files with
      | nil => cases hf
      | cons g gs ih =>
          rcases List.mem_cons.mp hf with rfl | hf2
          · have hskip : ¬ (f.relPath = ".gitignore" ∨ f.workExists = false) := by
              rintro (h | h)
              · exact hgi h
              · rw [hwe] at h; cases h
            have hnm : ¬ f.state = FileState.modified := by
              rw [hst]; intro hh; cases hh
            simp only [uploadClassify]
            rw [if_neg hskip, if_neg hnm, if_pos hst]
            exact List.mem_cons_self _ _
          · have hmem := ih hf2
            simp only [uploadClassify]
            split
            · exact hmem
            · split
              · exact hmem
              · split
                · exact List.mem_cons_of_mem _ hmem
                · exact hmem
  · intro hc hm
    unfold uploadPhase
    rw [if_neg (fun h => h hc), if_pos hm]

/-- Witness for C3: one CONFLICTED candidate aborts the upload and a
MODIFIED-free list reports nothing to upload. -/
theorem upload_aborts_on_conflict_witness :
    (uploadClassify [⟨"AAA/a.c", true, FileState.conflicted⟩]).2 ≠ []
      ∧ uploadPhase [⟨"AAA/a.c", true, FileState.conflicted⟩] true "m" 1 "t" "h" "s"
            ⟨["AAA/a.c"], [], [], none⟩
          = (⟨["AAA/a.c"], [], [], none⟩,
              UploadResult.abortedConflicts ["AAA/a.c"])
      ∧ uploadPhase [⟨"AAA/b.c", true, FileState.same⟩] true "m" 1 "t" "h" "s"
            ⟨["AAA/b.c"], [], [], none⟩
          = (⟨["AAA/b.c"], [], [], none⟩, UploadResult.nothingToUpload) := by
  refine ⟨by decide, ?_, ?_⟩
  · exact ((upload_aborts_on_conflict [⟨"AAA/a.c", true, FileState.conflicted⟩]
      true "m" 1 "t" "h" "s" ⟨["AAA/a.c"], [], [], none⟩).1 (by decide)).1
  · exact (upload_aborts_on_conflict [⟨"AAA/b.c", true, FileState.same⟩]
      true "m" 1 "t" "h" "s" ⟨["AAA/b.c"], [], [], none⟩).2 (by decide) (by decide)

/-- C2: if Download leaves at least one conflict unresolved (a CONFLICTED
file the user skipped), the Production tag file keeps its pre-Download
content; a Download with no unresolved conflicts writes the tag as the new
Production head plus the sources hash, and so does a completed Upload. -/
theorem download_tag_preserved_on_conflict (files : List DlItem)
    (headCommit sourcesHash : String) (tagFile : Option String)
    (uf : List CandFile) (confirm : Bool) (comment : String) (bc : Nat)
    (ts newHead : String) (st : ProdState) :
    ((∃ f ∈ files, f.state = FileState.conflicted ∧ f.resolved = false) →
        downloadTagPhase files (some headCommit) sourcesHash tagFile = tagFile)
      ∧ ((¬ ∃ f ∈ files, f.state = FileState.conflicted ∧ f.resolved = false) →
          downloadTagPhase files (some headCommit) sourcesHash tagFile
            = some (headCommit ++ ":" ++ sourcesHash))
      ∧ ((uploadClassify uf).2 = [] → (uploadClassify uf).1 ≠ [] →
          confirm = true →
          (uploadPhase uf confirm comment bc ts newHead sourcesHash st).1.tag
            = some (newHead ++ ":" ++ sourcesHash)) := by
  refine ⟨?_, ?_, ?_⟩
  · intro h
    unfold downloadTagPhase
    rw [if_pos ((downloadUnresolvedFlag_iff files).mpr h)]
  · intro h
    unfold downloadTagPhase
    have hfl : downloadUnresolvedFlag files ≠ true := by
      intro hcontra
      exact h ((downloadUnresolvedFlag_iff files).mp hcontra)
    rw [if_neg (by simpa using hfl)]
    rfl
  · intro hc hm hconf
    unfold uploadPhase
    rw [if_neg (fun h => h hc), if_neg hm, if_neg (by rw [hconf]; intro hh; cases hh)]

/-- Witness for C2: a skipped conflict keeps the old tag; a conflict-free
Download writes the new tag; a completed Upload writes the new tag. -/
theorem download_tag_preserved_on_conflict_witness :
    (downloadTagPhase [⟨FileState.conflicted, false⟩] (some "h2") "s2" (some "h1:s1")
        = some "h1:s1")
      ∧ (downloadTagPhase [⟨FileState.updated, false⟩] (some "h2") "s2" (some "h1:s1")
          = some ("h2" ++ ":" ++ "s2"))
      ∧ (uploadPhase [⟨"AAA/a.c", true, FileState.modified⟩] true "m" 1 "t" "h3" "s2"
            ⟨["AAA/a.c"], [], [], some "h1:s1"⟩).1.tag
          = some ("h3" ++ ":" ++ "s2") := by
  have h := download_tag_preserved_on_conflict [⟨FileState.conflicted, false⟩]
    "h2" "s2" (some "h1:s1") [⟨"AAA/a.c", true, FileState.modified⟩] true "m" 1
    "t" "h3" ⟨["AAA/a.c"], [], [], some "h1:s1"⟩
  refine ⟨h.1 ⟨_, List.mem_cons_self _ _, rfl, rfl⟩, ?_, h.2.2 (by decide) (by decide) rfl⟩
  have h2 := download_tag_preserved_on_conflict [⟨FileState.updated, false⟩]
    "h2" "s2" (some "h1:s1") [] true "m" 1 "t" "h3" ⟨[], [], [], none⟩
  refine h2.2.1 ?_
  rintro ⟨f, hf, hs, -⟩
  rcases List.mem_cons.mp hf with rfl | hf2
  · cases hs
  · cases hf2

/-- C4 (code bug): the backup step run by Upload does not enforce
retention.  `_create_backup_command` always writes index `000000` and never
deletes old backups (its own comment claims the index is incremented inside
the generated command, and the unused `create_backup_file` implements the
intended rotation).  With `backup_count = 1`, two uploads of the same path
at distinct timestamps leave two backups — more than `backup_count`. -/
theorem backup_retention_not_enforced :
    (uploadPhase [⟨"AAA/a.c", true, FileState.modified⟩] true "m2" 1 "2510010102"
          "h2" "s"
          (uploadPhase [⟨"AAA/a.c", true, FileState.modified⟩] true "m1" 1
              "2510010101" "h1" "s" ⟨["AAA/a.c"], [], [], none⟩).1).1.backups
        = ["AAA/backup/a.c_cccopy_000000_2510010101",
            "AAA/backup/a.c_cccopy_000000_2510010102"] := by
  decide

/-! ## Pattern matcher (`ProjectManager.collect_files`, config.py lines
1775-1829, with Python `fnmatch` / `glob` semantics) -/

/-- Python `fnmatch.fnmatch(name, pattern)` on character lists (POSIX, so
`normcase` is the identity): `*` matches any run of characters including
`/`, `?` matches exactly one character, anything else matches literally.
The patterns in this development contain no `[...]` classes. -/
def fnmatchAux : Nat → List Char → List Char → Bool
  | 0, _, _ => false
  | _ + 1, [], name => name.isEmpty
  | fuel + 1, c :: ps, name =>
      if c = '*' then
        fnmatchAux fuel ps name ||
          (match name with
           | [] => false
           | _ :: ns => fnmatchAux fuel (c :: ps) ns)
      else
        match name with
        | [] => false
        | n :: ns => (c = '?' ∨ c = n) && fnmatchAux fuel ps ns

/-- Entry point: the fuel bounds the recursion depth (every step shortens
the pattern or the name, so `|pattern| + |name| + 1` suffices; the fuel is
a termination device only). -/
def fnmatchList (p name : List Char) : Bool :=
  fnmatchAux (p.length + name.length + 1) p name

/-- `fnmatch.fnmatch(name, pattern)` on strings. -/
def fnmatchStr (name pattern : String) : Bool :=
  fnmatchList pattern.data name.data

/-- Does the string start with `'.'` (a hidden file name)? -/
def startsDot (s : String) : Bool :=
  match s.data with
  | [] => false
  | c :: _ => c = '.'

/-- Does the string end with `'/'`? -/
def endsSlash (s : String) : Bool :=
  match s.data.getLast? with
  | none => false
  | some c => c = '/'

/-- Drop the final character (for trailing-slash patterns). -/
def dropLastChar (s : String) : String :=
  String.mk s.data.dropLast

/-- One `glob` path component matched against one name: wildcard-bearing
components do not match names starting with `.` (hidden files). -/
def globSeg (p s : String) : Bool :=
  if (p.data.any fun c => c = '*' ∨ c = '?' ∨ c = '[') && startsDot s then false
  else fnmatchList p.data s.data

/-- `glob.glob(..., recursive=True)` matching of a pattern (as `/`-split
components) against a file path (as components): a whole-component `**`
matches any number of non-hidden components; a trailing `**` requires at
least one component, since the zero-component case denotes the directory
itself and `collect_files` keeps only files (`os.path.isfile`). -/
def globAux : Nat → List String → List String → Bool
  | 0, _, _ => false
  | _ + 1, [], rest => rest.isEmpty
  | fuel + 1, p :: ps, rest =>
      if p = "**" then
        if ps.isEmpty then
          !rest.isEmpty && rest.all (fun s => !(startsDot s))
        else
          globAux fuel ps rest ||
            (match rest with
             | [] => false
             | r :: rs => !(startsDot r) && globAux fuel (p :: ps) rs)
      else
        match rest with
        | [] => false
        | s :: ss => globSeg p s && globAux fuel ps ss

/-- Entry point; as with `fnmatchList` the fuel is a termination device. -/
def globMatch (p rest : List String) : Bool :=
  globAux (p.length + rest.length + 1) p rest

/-- The `/`-joined prefixes of a path's components, shortest first,
including the full path — the `'/'.join(path_parts[:i+1])` values of
`_is_ignored_by_gitignore`. -/
def prefixJoins (p : List String) : List String :=
  (List.range p.length).map (fun i => String.intercalate "/" (p.take (i + 1)))

/-- `ProjectManager._is_ignored_by_gitignore` (config.py lines 1658-1682):
a pattern with a trailing `/` is matched against every directory prefix of
the path; any other pattern is matched against the path itself and against
every prefix. -/
def is_ignored_by_gitignore (p : List String) (patterns : List String) : Bool :=
  patterns.any fun pat =>
    if endsSlash pat then
      let dirPat := dropLastChar pat
      (prefixJoins p).any (fun d => fnmatchStr d dirPat)
    else
      fnmatchStr (String.intercalate "/" p) pat
        || (prefixJoins p).any (fun d => fnmatchStr d pat)

/-- Deduplication keeping first occurrences, modelling the Python `set`
that `collect_files` accumulates matches in (membership is what matters;
the set's iteration order is arbitrary). -/
def setDedup : List (List String) → List (List String)
  | [] => []
  | x :: xs => x :: (setDedup xs).filter (fun y => y ≠ x)

lemma setDedup_mem (a : List String) (l : List (List String)) :
    a ∈ setDedup l ↔ a ∈ l := by
  induction l with
  | nil => simp [setDedup]
  | cons x xs ih =>
      simp only [setDedup, List.mem_cons]
      constructor
      · rintro (rfl | h)
        · exact Or.inl rfl
        · exact Or.inr (ih.mp (List.mem_of_mem_filter h))
      · rintro (rfl | h)
        · exact Or.inl rfl
        · by_cases hax : a = x
          · exact Or.inl hax
          · refine Or.inr (List.mem_filter.mpr ⟨ih.mpr h, ?_⟩)
            simpa using hax

/-- `ProjectManager.collect_files` (config.py lines 1775-1829).  Files are
relative paths as `/`-split components; `prodFiles` / `workFiles` are the
files under the Production and Work roots.  SOURCES patterns are collected
by `glob.glob(root + '/' + pattern, recursive=True)`; with
`includeWorkOnly` the Work matches are mapped onto Production paths (the
model works in relative paths throughout, and deduplicates like the
Python `set`).  A file is dropped when any EXCLUDES pattern `fnmatch`es
its relative path or its absolute path (`prodDir ++ "/" ++ rel`), or —
when `useGitignore` is set — when the gitignore patterns apply. -/
def collect_files (prodDir : String) (sources : List (List String))
    (excludes gitignorePatterns : List String)
    (useGitignore includeWorkOnly : Bool)
    (prodFiles workFiles : List (List String)) : List (List String) :=
  let fromProd := prodFiles.filter (fun p => sources.any (fun pat => globMatch pat p))
  let fromWork :=
    if includeWorkOnly then
      workFiles.filter (fun p => sources.any (fun pat => globMatch pat p))
    else []
  let matched := setDedup (fromProd ++ fromWork)
  matched.filter fun p =>
    let rel := String.intercalate "/" p
    let excluded := excludes.any fun e =>
      fnmatchStr rel e || fnmatchStr (prodDir ++ "/" ++ rel) e
    let ignored := useGitignore && is_ignored_by_gitignore p gitignorePatterns
    !excluded && !ignored

/-- The file tree of the specification's pattern-matcher example
(spec section 8, property 9). -/
def c6Files : List (List String) :=
  [["AAA", "x", "y.c"], ["AAA", "backup", "x"], ["BBB", "x.py"],
    ["BBB", "x.txt"], ["CCC", "z"]]

/-- The example run of `collect_files` with the EXCLUDES check only (the
default `use_gitignore=False`). -/
def c6NoIgnore : List (List String) :=
  collect_files "/prod" [["AAA", "**"], ["BBB", "*.py"]] ["**/backup/"] []
    false false c6Files []

/-- The example run with gitignore filtering on and the EXCLUDES pattern
present in the `.gitignore` (the configuration every production caller
uses). -/
def c6WithIgnore : List (List String) :=
  collect_files "/prod" [["AAA", "**"], ["BBB", "*.py"]] ["**/backup/"]
    ["**/backup/"] true false c6Files []

/-- C6 counterexample: with `SOURCES = ["AAA/**", "BBB/*.py"]` and
`EXCLUDES = ["**/backup/"]`, `collect_files` does NOT exclude
`AAA/backup/x`: `fnmatch` requires the candidate string to end with the
literal `backup/`, which no file path does, so the trailing-slash EXCLUDES
pattern never matches a file.  The claim says `AAA/backup/x` is excluded. -/
theorem collect_files_backup_not_excluded :
    ["AAA", "backup", "x"] ∈ c6NoIgnore := by
  decide

/-- C6 (amended): every file returned by `collect_files` is matched by a
SOURCES pattern and `fnmatch`-matched by no EXCLUDES pattern; on the
spec's example the matcher includes `AAA/x/y.c` and `BBB/x.py` and
excludes `BBB/x.txt` and `CCC/z`, but `AAA/backup/x` is only dropped by
the gitignore filter (enabled in every production caller, with the
EXCLUDES written into `.gitignore`), not by the EXCLUDES `fnmatch` check,
whose trailing-slash pattern cannot match a file path. -/
theorem collect_files_excludes_applied (prodDir : String)
    (sources : List (List String)) (excludes gitignorePatterns : List String)
    (useGitignore includeWorkOnly : Bool) (prodFiles workFiles : List (List String))
    (p : List String)
    (hp : p ∈ collect_files prodDir sources excludes gitignorePatterns
        useGitignore includeWorkOnly prodFiles workFiles) :
    (sources.any (fun pat => globMatch pat p) = true
        ∧ ∀ e ∈ excludes,
            fnmatchStr (String.intercalate "/" p) e = false
              ∧ fnmatchStr (prodDir ++ "/" ++ String.intercalate "/" p) e = false)
      ∧ (["AAA", "x", "y.c"] ∈ c6NoIgnore ∧ ["BBB", "x.py"] ∈ c6NoIgnore
            ∧ ["BBB", "x.txt"] ∉ c6NoIgnore ∧ ["CCC", "z"] ∉ c6NoIgnore)
      ∧ (["AAA", "x", "y.c"] ∈ c6WithIgnore ∧ ["BBB", "x.py"] ∈ c6WithIgnore
            ∧ ["AAA", "backup", "x"] ∉ c6WithIgnore) := by
  refine ⟨?_, by decide, by decide⟩
  simp only [collect_files] at hp
  have hpred := List.of_mem_filter hp
  have hmem1 := List.mem_of_mem_filter hp
  have hmem2 := (setDedup_mem _ _).mp hmem1
  constructor
  · rcases List.mem_append.mp hmem2 with h | h
    · exact (List.mem_filter.mp h).2
    · by_cases hw : includeWorkOnly = true
      · rw [if_pos hw] at h
        exact (List.mem_filter.mp h).2
      · rw [if_neg hw] at h
        cases h
  · rw [Bool.and_eq_true] at hpred
    have hex : (excludes.any fun e =>
        fnmatchStr (String.intercalate "/" p) e
          || fnmatchStr (prodDir ++ "/" ++ String.intercalate "/" p) e) = false := by
      simpa using hpred.1
    intro e he
    have h2 := List.any_eq_false.mp hex e he
    simp only [Bool.or_eq_true, not_or, Bool.not_eq_true] at h2
    exact h2

/-- Witness for C6 (amended) at the concrete example: `AAA/x/y.c` is in the
result, is SOURCES-matched and is `fnmatch`ed by no EXCLUDES pattern. -/
theorem collect_files_excludes_applied_witness :
    ([["AAA", "**"], ["BBB", "*.py"]].any
          (fun pat => globMatch pat ["AAA", "x", "y.c"]) = true
        ∧ ∀ e ∈ ["**/backup/"],
            fnmatchStr (String.intercalate "/" ["AAA", "x", "y.c"]) e = false
              ∧ fnmatchStr ("/prod" ++ "/" ++ String.intercalate "/" ["AAA", "x", "y.c"]) e
                  = false)
      ∧ (["AAA", "x", "y.c"] ∈ c6NoIgnore ∧ ["BBB", "x.py"] ∈ c6NoIgnore
            ∧ ["BBB", "x.txt"] ∉ c6NoIgnore ∧ ["CCC", "z"] ∉ c6NoIgnore)
      ∧ (["AAA", "x", "y.c"] ∈ c6WithIgnore ∧ ["BBB", "x.py"] ∈ c6WithIgnore
            ∧ ["AAA", "backup", "x"] ∉ c6WithIgnore) :=
  collect_files_excludes_applied "/prod" [["AAA", "**"], ["BBB", "*.py"]]
    ["**/backup/"] [] false false c6Files [] ["AAA", "x", "y.c"] (by decide)

/-! ## State cache (`CCCopyTUI.get_cached_state` / `update_cache`, tui.py
lines 427-479) -/

/-- A cache entry `(captured-at, classification, mtime)`; `mtime = none`
models a legacy two-element entry (the backward-compatibility branch).
Times are integers (Python uses float seconds). -/
structure CacheEntry where
  timestamp : Int
  state : FileState
  mtime : Option Int
deriving DecidableEq, Repr

/-- `CCCopyTUI.get_cached_state` (tui.py lines 427-463): miss when no
entry; drop the entry and miss when it is older than the TTL
(`current_time - timestamp >= cache_timeout`); drop it and miss when the
caller provided an mtime, the entry has one, and they differ; otherwise
hit.  Returns the served state and the cache afterwards. -/
def get_cached_state (cache : List (String × CacheEntry)) (relPath : String)
    (currentMtime : Option Int) (now cacheTimeout : Int) :
    Option FileState × List (String × CacheEntry) :=
  match cache.lookup relPath with
  | none => (none, cache)
  | some e =>
      if now - e.timestamp ≥ cacheTimeout then
        (none, cache.filter (fun kv => !(kv.1 == relPath)))
      else
        match currentMtime, e.mtime with
        | some m, some cm =>
            if m ≠ cm then (none, cache.filter (fun kv => !(kv.1 == relPath)))
            else (some e.state, cache)
        | _, _ => (some e.state, cache)

/-- `CCCopyTUI.update_cache` (tui.py lines 465-479): store
`(time.time(), state, mtime)` where the mtime is the file's current mtime,
or `0` when `os.path.getmtime` raises. -/
def update_cache (cache : List (String × CacheEntry)) (relPath : String)
    (state : FileState) (mtimeResult : Option Int) (now : Int) :
    List (String × CacheEntry) :=
  cache.filter (fun kv => !(kv.1 == relPath))
    ++ [(relPath, ⟨now, state, some (mtimeResult.getD 0)⟩)]

lemma lookup_filtered_append (l : List (String × CacheEntry)) (rp : String)
    (e : CacheEntry) :
    (l.filter (fun kv => !(kv.1 == rp)) ++ [(rp, e)]).lookup rp = some e := by
  induction l with
  | nil => simp [List.lookup]
  | cons kv kvs ih =>
      by_cases h : kv.1 == rp
      · simp only [List.filter_cons]
        rw [if_neg (by simp [h])]
        exact ih
      · simp only [List.filter_cons]
        rw [if_pos (by simp [h]), List.cons_append, List.lookup_cons]
        have hne : (rp == kv.1) = false := by
          rw [beq_eq_false_iff_ne]
          intro hh
          exact h (by simp [hh])
        rw [hne]
        exact ih

/-- C8: for an entry stored in the current format and a caller-provided
mtime, the lookup hits exactly when the entry is younger than the TTL and
the mtimes agree; and `update_cache` always records the current mtime (or
`0` on a stat failure) alongside the classification and capture time. -/
theorem cache_lookup_semantics (cache : List (String × CacheEntry))
    (relPath : String) (ts cm m now timeout : Int) (st : FileState)
    (hlook : cache.lookup relPath = some ⟨ts, st, some cm⟩) :
    ((get_cached_state cache relPath (some m) now timeout).1 = some st
        ↔ (now - ts < timeout ∧ m = cm))
      ∧ ∀ (c2 : List (String × CacheEntry)) (rp : String) (s2 : FileState)
          (mt : Option Int) (n2 : Int),
          (update_cache c2 rp s2 mt n2).lookup rp
            = some ⟨n2, s2, some (mt.getD 0)⟩ := by
  constructor
  · simp only [get_cached_state, hlook]
    by_cases hexp : now - ts ≥ timeout
    · rw [if_pos hexp]
      simp only [Option.some.injEq]
      constructor
      · intro h
        cases h
      · rintro ⟨hlt, -⟩
        omega
    · rw [if_neg hexp]
      by_cases hm : m ≠ cm
      · rw [if_pos hm]
        simp only []
        constructor
        · intro h
          cases h
        · rintro ⟨-, heq⟩
          exact absurd heq hm
      · rw [if_neg hm]
        push_neg at hm
        constructor
        · intro _
          exact ⟨by omega, hm⟩
        · intro _
          rfl
  · intro c2 rp s2 mt n2
    exact lookup_filtered_append c2 rp _

/-- Witness for C8: a fresh matching entry hits; the inserted entry holds
the mtime. -/
theorem cache_lookup_semantics_witness :
    ((get_cached_state [("a.c", ⟨100, FileState.same, some 7⟩)] "a.c" (some 7)
          150 300).1 = some FileState.same
        ↔ ((150 : Int) - 100 < 300 ∧ (7 : Int) = 7))
      ∧ ∀ (c2 : List (String × CacheEntry)) (rp : String) (s2 : FileState)
          (mt : Option Int) (n2 : Int),
          (update_cache c2 rp s2 mt n2).lookup rp
            = some ⟨n2, s2, some (mt.getD 0)⟩ :=
  cache_lookup_semantics [("a.c", ⟨100, FileState.same, some 7⟩)] "a.c"
    100 7 7 150 300 FileState.same (by decide)

/-! ## Lock manager (`LockManager`, lock_manager.py) -/

/-- What one iteration of the acquisition loop observes: whether the lock
directory exists when creation is attempted, and whether it is stale
(its mtime older than `max_stale_time`). -/
structure LockSnap where
  dirExists : Bool
  stale : Bool
deriving DecidableEq, Repr

/-- Filesystem actions the acquisition loop performs. -/
inductive LockAction where
  | createDir
  | removeStaleDir
deriving DecidableEq, Repr

/-- Result of `LockManager.__enter__`. -/
inductive AcquireOutcome where
  | acquired
  | timeoutError
deriving DecidableEq, Repr

/-- The `__enter__` polling loop (lock_manager.py lines 93-149), in the
direct (non-escalated) path where `os.makedirs` succeeds exactly when the
directory does not exist.  Each list element is one poll iteration; an
exhausted list is the timeout, which raises `CCCopyError` after reporting
the holder.  Returns the outcome, the `acquired` flag, and the actions
performed. -/
def lockAcquireLoop : List LockSnap → AcquireOutcome × Bool × List LockAction
  | [] => (AcquireOutcome.timeoutError, false, [])
  | w :: ws =>
      if w.dirExists = false then (AcquireOutcome.acquired, true, [LockAction.createDir])
      else if w.dirExists = true ∧ w.stale = true then
        let r := lockAcquireLoop ws
        (r.1, r.2.1, LockAction.removeStaleDir :: r.2.2)
      else lockAcquireLoop ws

/-- `LockManager._release_lock` (lock_manager.py lines 73-91): the lock
directory is removed only when `self.acquired` is set.  Returns whether
the directory exists afterwards and the new flag. -/
def lockRelease (acquired dirExists : Bool) : Bool × Bool :=
  if acquired = true then (false, false) else (dirExists, acquired)

/-- C9: release removes the lock directory only when this manager holds
the lock; the `acquired` flag is set exactly by a successful creation; a
timed-out acquisition against a continuously held, non-stale lock raises
the timeout error with `acquired` still false, performs no removal during
the loop, and the subsequent release leaves the other holder's directory
in place. -/
theorem lock_release_only_if_held (acquired dirExists : Bool)
    (ws : List LockSnap) :
    ((lockRelease acquired dirExists).1 ≠ dirExists → acquired = true)
      ∧ ((lockAcquireLoop ws).2.1 = true
          ↔ (lockAcquireLoop ws).1 = AcquireOutcome.acquired)
      ∧ ((∀ w ∈ ws, w.dirExists = true ∧ w.stale = false) →
          lockAcquireLoop ws = (AcquireOutcome.timeoutError, false, [])
            ∧ (lockRelease (lockAcquireLoop ws).2.1 dirExists).1 = dirExists)
      ∧ (LockAction.removeStaleDir ∈ (lockAcquireLoop ws).2.2 →
          ∃ w ∈ ws, w.stale = true) := by
  refine ⟨?_, ?_, ?_, ?_⟩
  · intro h
    by_cases ha : acquired = true
    · exact ha
    · exact absurd rfl (by unfold lockRelease at h; rw [if_neg ha] at h; exact h)
  · induction ws with
    | nil => simp [lockAcquireLoop]
    | cons w ws ih =>
        unfold lockAcquireLoop
        by_cases h1 : w.dirExists = false
        · rw [if_pos h1]
          simp
        · rw [if_neg h1]
          by_cases h2 : w.dirExists = true ∧ w.stale = true
          · rw [if_pos h2]
            exact ih
          · rw [if_neg h2]
            exact ih
  · intro hall
    have key : lockAcquireLoop ws = (AcquireOutcome.timeoutError, false, []) := by
      induction ws with
      | nil => rfl
      | cons w ws ih =>
          have hw := hall w (List.mem_cons_self w ws)
          unfold lockAcquireLoop
          rw [if_neg (by rw [hw.1]; intro hh; cases hh)]
          rw [if_neg (by rintro ⟨-, hs⟩; rw [hall w (List.mem_cons_self w ws) |>.2] at hs; cases hs)]
          exact ih (fun v hv => hall v (List.mem_cons_of_mem w hv))
    refine ⟨key, ?_⟩
    rw [key]
    unfold lockRelease
    rw [if_neg (by intro hh; cases hh)]
  · induction ws with
    | nil => intro h; cases h
    | cons w ws ih =>
        unfold lockAcquireLoop
        by_cases h1 : w.dirExists = false
        · rw [if_pos h1]
          intro h
          rcases List.mem_cons.mp h with hh | hh
          · cases hh
          · cases hh
        · rw [if_neg h1]
          by_cases h2 : w.dirExists = true ∧ w.stale = true
          · rw [if_pos h2]
            intro _
            exact ⟨w, List.mem_cons_self w ws, h2.2⟩
          · rw [if_neg h2]
            intro h
            rcases ih h with ⟨v, hv, hvs⟩
            exact ⟨v, List.mem_cons_of_mem w hv, hvs⟩

/-- Witness for C9: a two-iteration poll against a held fresh lock times
out with no removal, and the release that follows removes nothing. -/
theorem lock_release_only_if_held_witness :
    lockAcquireLoop [⟨true, false⟩, ⟨true, false⟩]
        = (AcquireOutcome.timeoutError, false, [])
      ∧ (lockRelease (lockAcquireLoop [⟨true, false⟩, ⟨true, false⟩]).2.1
            true).1 = true :=
  (lock_release_only_if_held false true [⟨true, false⟩, ⟨true, false⟩]).2.2.1
    (by decide)

/-! ## Work rollback (`CCCopyTUI.rollback_work_to_commit`, tui.py lines
4182-4281) -/

/-- A committed tree: file path to content (tracked content only;
`checkout HEAD -- .` does not touch untracked files). -/
def Tree := String → Option String

/-- The Work repository: the tree before the first commit and the
post-state trees of commits `C1 .. Cn`, oldest first. -/
structure WorkRepo where
  base : Tree
  commits : List Tree

/-- The tree after commit `i` (1-based); `treeAt r 0` is the pre-history
tree and `treeAt r r.commits.length` is HEAD's tree. -/
def treeAt (r : WorkRepo) (i : Nat) : Tree :=
  if i = 0 then r.base else r.commits.getD (i - 1) r.base

/-- `git revert` of one commit with pre-tree `pre` and post-tree `post`,
applied to working tree `w` (the clean case: every path the commit touched
is put back to its pre value, other paths keep their working value). -/
def revertOne (pre post w : Tree) : Tree :=
  fun pth => if post pth ≠ pre pth then pre pth else w pth

/-- `git revert --no-commit <sel>..HEAD`: revert the commits with indices
`i, i-1, ..., sel+1`, newest first, onto the working tree. -/
def revertDown (r : WorkRepo) : Nat → Nat → Tree → Tree
  | 0, _, w => w
  | i + 1, sel, w =>
      if i + 1 ≤ sel then w
      else revertDown r i sel (revertOne (treeAt r i) (treeAt r (i + 1)) w)

/-- `CCCopyTUI.rollback_work_to_commit` after confirmation (tui.py lines
4217-4254): `checkout HEAD -- .` discards the uncommitted changes (the
working tree becomes HEAD's tree); if the selected commit is HEAD that is
all, otherwise `revert --no-commit <selected>..HEAD` reverts the commits
after the selected one. -/
def rollback_work_to_commit (r : WorkRepo) (sel : Nat) : Tree :=
  let n := r.commits.length
  let w := treeAt r n
  if sel = n then w
  else revertDown r n sel w

lemma revertOne_post (pre post : Tree) : revertOne pre post post = pre := by
  funext pth
  unfold revertOne
  by_cases h : post pth = pre pth
  · rw [if_neg (by simpa using h), h]
  · rw [if_pos (by simpa using h)]

lemma revertDown_treeAt (r : WorkRepo) (i sel : Nat) (hsel : sel ≤ i) :
    revertDown r i sel (treeAt r i) = treeAt r sel := by
  induction i with
  | zero =>
      have h0 : sel = 0 := Nat.le_zero.mp hsel
      rw [h0]
      rfl
  | succ i ih =>
      unfold revertDown
      by_cases hle : i + 1 ≤ sel
      · have heq : sel = i + 1 := Nat.le_antisymm hsel hle
        rw [if_pos hle, heq]
      · rw [if_neg hle, revertOne_post]
        exact ih (by omega)

/-- The S6 scenario: one file `"f"`, three commits writing `"v1"`, `"v2"`,
`"v3"`. -/
def c5Repo : WorkRepo :=
  ⟨fun _ => none,
    [fun _ => some "v1", fun _ => some "v2", fun _ => some "v3"]⟩

/-- C5 counterexample: with commits C1, C2, C3 and C2 selected, the code
runs `revert --no-commit C2..HEAD`, which reverts only C3; the working
tree ends at C2's post-state (`"v2"`), not at C1's post-state (`"v1"`) as
the claim asserts. -/
theorem rollback_lands_on_selected_commit :
    rollback_work_to_commit c5Repo 2 "f" = some "v2"
      ∧ treeAt c5Repo 1 "f" = some "v1"
      ∧ rollback_work_to_commit c5Repo 2 "f" ≠ treeAt c5Repo 1 "f" := by
  refine ⟨rfl, rfl, by decide⟩

/-- C5 (amended): confirming Rollback first discards uncommitted changes
(`checkout HEAD -- .`), and with commit `sel` selected leaves the working
tree at the post-state of the SELECTED commit — the commits after it are
reverted as an uncommitted staged diff — not at the state before the
selected commit; rolling back to C1's post-state requires selecting C1. -/
theorem rollback_restores_selected_commit (r : WorkRepo) (sel : Nat)
    (hsel : sel ≤ r.commits.length) :
    rollback_work_to_commit r sel = treeAt r sel := by
  unfold rollback_work_to_commit
  by_cases h : sel = r.commits.length
  · rw [if_pos h, h]
  · rw [if_neg h]
    exact revertDown_treeAt r r.commits.length sel hsel

/-- Witness for C5 (amended): selecting C2 out of three commits yields
C2's post-state. -/
theorem rollback_restores_selected_commit_witness :
    rollback_work_to_commit c5Repo 2 "f" = treeAt c5Repo 2 "f" :=
  congrFun (rollback_restores_selected_commit c5Repo 2 (by decide)) "f"

end CCCopy
